import Mathlib

/-!
Shallow embedding of `src/script.js`, a browser-side product table with
client-side search, sort, pagination and image-fallback handling.

Modelling conventions:
* JS strings are `List Char` (one entry per UTF-16 code unit; for the
  catalog data in scope all characters are in the BMP, so `Char.toNat`
  coincides with `charCodeAt`).
* JS numbers holding integral values (ids, prices, page counters, the
  hash accumulator) are `Int`; list lengths are `Nat`.
* `String.prototype.toLowerCase` is modelled on ASCII letters, and
  `trim` strips the usual ASCII whitespace, which covers every string
  the code compares ("", "price-asc", search terms, URLs).
* Deliberately out of scope: the DOM, HTML templating, the network
  fetch, and timers; the claims under study are about the pure state
  transitions and string computations.
-/

namespace Script

/-- ASCII lowercasing of one character (model of `toLowerCase`). -/
def lowerChar (c : Char) : Char :=
  if 'A' ≤ c ∧ c ≤ 'Z' then Char.ofNat (c.toNat + 32) else c

/-- Model of `String.prototype.toLowerCase`. -/
def lowerStr (s : List Char) : List Char := s.map lowerChar

/-- Whitespace characters removed by `String.prototype.trim`. -/
def isSpaceChar (c : Char) : Bool :=
  c = ' ' ∨ c = '\t' ∨ c = '\n' ∨ c = '\r'

/-- Model of `String.prototype.trim`: drop whitespace at both ends. -/
def trimStr (s : List Char) : List Char :=
  ((s.dropWhile isSpaceChar).reverse.dropWhile isSpaceChar).reverse

/-- Model of `String.prototype.includes`: does `needle` occur as a
contiguous substring of the second argument? -/
def containsSub (needle : List Char) : List Char → Bool
  | [] => needle.isEmpty
  | c :: t => needle.isPrefixOf (c :: t) || containsSub needle t

/-- A product record, keeping the fields the core logic reads
(`id`, `title`, `price`); `description`, `category` and `images` only
flow into markup and the image resolver, which receives bare URLs. -/
structure Product where
  id : Int
  title : List Char
  price : Int
deriving DecidableEq, Repr

/-- The mutable page-scope state of `script.js` (`allProducts`,
`filteredProducts`, `currentPage`, `itemsPerPage`, `currentSort`).
`currentSort` is the sort-select value; `""` (here `[]`) is the
"none" option. `itemsPerPage` comes from a positive page-size select. -/
structure AppState where
  allProducts : List Product
  filteredProducts : List Product
  currentPage : Int
  itemsPerPage : Nat
  currentSort : List Char
deriving DecidableEq

/-- Lexicographic code-point order on titles, the model of the
locale-dependent builtin `a.title.localeCompare(b.title) ≤ 0`. -/
def lexLe : List Char → List Char → Bool
  | [], _ => true
  | _ :: _, [] => false
  | a :: as, b :: bs => if a < b then true else if b < a then false else lexLe as bs

/-- `applySorting` (script.js lines 107–125): stable sort of the list by
the comparator the `switch` picks; an unknown key leaves the order
untouched.  JS `Array.prototype.sort` with comparator `a.price-b.price`
is a stable ascending sort by price, modelled by `List.mergeSort`. -/
def applySorting (sortType : List Char) (l : List Product) : List Product :=
  if sortType = "price-asc".data then
    l.mergeSort (fun a b => decide (a.price ≤ b.price))
  else if sortType = "price-desc".data then
    l.mergeSort (fun a b => decide (b.price ≤ a.price))
  else if sortType = "name-asc".data then
    l.mergeSort (fun a b => lexLe a.title b.title)
  else if sortType = "name-desc".data then
    l.mergeSort (fun a b => lexLe b.title a.title)
  else l

/-- `handleSearch` (script.js lines 77–95): lowercase and trim the term;
an empty term restores a copy of the full catalog, otherwise keep the
products whose lowercased title contains the term; re-apply the current
sort when one is active; reset to page 1. -/
def handleSearch (st : AppState) (searchTerm : List Char) : AppState :=
  let term := trimStr (lowerStr searchTerm)
  let fp :=
    if term = [] then st.allProducts
    else st.allProducts.filter (fun p => containsSub term (lowerStr p.title))
  let fp' := if st.currentSort ≠ [] then applySorting st.currentSort fp else fp
  { st with filteredProducts := fp', currentPage := 1 }

/-- `handleSort` (script.js lines 98–104): only when `currentSort` is a
non-empty (truthy) string does it sort the view and reset to page 1. -/
def handleSort (st : AppState) : AppState :=
  if st.currentSort ≠ [] then
    { st with
      filteredProducts := applySorting st.currentSort st.filteredProducts,
      currentPage := 1 }
  else st

/-- The sort-select change handler (script.js lines 47–50): store the
new select value in `currentSort`, then run `handleSort`. -/
def sortChange (st : AppState) (newSort : List Char) : AppState :=
  handleSort { st with currentSort := newSort }

/-- `Math.ceil(viewLen / itemsPerPage)` as computed in `renderPagination`
and `changePage`, for the positive page sizes the UI offers. -/
def jsTotalPages (viewLen ipp : Nat) : Nat :=
  (viewLen + ipp - 1) / ipp

/-- Total pages of the current view. -/
def totalPages (st : AppState) : Nat :=
  jsTotalPages st.filteredProducts.length st.itemsPerPage

/-- `changePage` (script.js lines 313–325): a request outside
`[1, totalPages]` returns immediately; otherwise `currentPage` is set
and the view re-rendered (rendering itself mutates no model state). -/
def changePage (st : AppState) (page : Int) : AppState :=
  if page < 1 ∨ page > (totalPages st : Int) then st
  else { st with currentPage := page }

/-! ### Image resolver -/

/-- `ToInt32` as performed by the JS `<<` operator: reduce mod `2^32`
and reinterpret as a signed 32-bit value. -/
def toInt32 (x : Int) : Int :=
  let r := x % 4294967296
  if r < 2147483648 then r else r - 4294967296

/-- One step of the hash in `getImageWithStrategies`:
`((a << 5) - a) + b.charCodeAt(0)`.  `a << 5` coerces the accumulator
to int32 and wraps, while the outer `-`/`+` are exact float additions
(the magnitudes stay far below 2^53). -/
def hashStep (a : Int) (c : Char) : Int :=
  toInt32 (a * 32) - a + c.toNat

/-- The reduce-based string hash in `getImageWithStrategies`
(script.js line 151). -/
def jsHash (u : List Char) : Int := u.foldl hashStep 0

/-- Unreserved characters that `encodeURIComponent` leaves intact
(code point 39 is the single quote). -/
def isUnreserved (c : Char) : Bool :=
  c.isAlpha || c.isDigit || c = '-' || c = '_' || c = '.' ||
  c = '!' || c = '~' || c = '*' || c.toNat = 39 || c = '(' || c = ')'

/-- Uppercase hexadecimal digit for a value below 16. -/
def hexDigitChar (n : Nat) : Char :=
  if n < 10 then Char.ofNat (48 + n) else Char.ofNat (55 + n)

/-- UTF-8 byte sequence of a code point. -/
def utf8Bytes (n : Nat) : List Nat :=
  if n < 128 then [n]
  else if n < 2048 then [192 + n / 64, 128 + n % 64]
  else if n < 65536 then [224 + n / 4096, 128 + n / 64 % 64, 128 + n % 64]
  else [240 + n / 262144, 128 + n / 4096 % 64, 128 + n / 64 % 64, 128 + n % 64]

/-- `%XX` percent-encoding of one byte. -/
def percentByte (b : Nat) : List Char :=
  ['%', hexDigitChar (b / 16), hexDigitChar (b % 16)]

/-- Model of the JS builtin `encodeURIComponent`: keep unreserved
characters, percent-encode the UTF-8 bytes of everything else. -/
def encodeURIComponent : List Char → List Char
  | [] => []
  | c :: cs =>
    (if isUnreserved c then [c]
     else (utf8Bytes c.toNat).foldr (fun b acc => percentByte b ++ acc) []) ++
    encodeURIComponent cs

/-- Proxy variant A: the `wsrv.nl` rewrite. -/
def proxyA (u : List Char) : List Char :=
  "https://wsrv.nl/?url=".data ++ encodeURIComponent u ++ "&default=1".data

/-- Proxy variant B: the `images.weserv.nl` rewrite. -/
def proxyB (u : List Char) : List Char :=
  "https://images.weserv.nl/?url=".data ++ encodeURIComponent u ++ "&default=1".data

/-- The 4th, generic CORS relay used only by `handleImageError`. -/
def proxyCors (u : List Char) : List Char :=
  "https://corsproxy.io/?".data ++ encodeURIComponent u

/-- The three initial-load strategies of `getImageWithStrategies`
(script.js lines 152–156). -/
def strategies3 (u : List Char) : List (List Char) :=
  [u, proxyA u, proxyB u]

/-- The four fallback strategies of `handleImageError`
(script.js lines 407–412). -/
def strategies4 (u : List Char) : List (List Char) :=
  [u, proxyA u, proxyB u, proxyCors u]

/-- `getImageWithStrategies` (script.js lines 147–159): an empty
(falsy) URL yields `""`; otherwise a deterministic hash of the URL
picks one of the three strategies. -/
def getImageWithStrategies (u : List Char) : List Char :=
  if u = [] then []
  else (strategies3 u).getD ((jsHash u).natAbs % 3) []

/-- The state of one rendered `<img>` element together with its
`.product-image-wrapper` (when it has one), as read and written by
`handleImageError`:
* `errorClass` — membership of the `image-error` class;
* `isCategory` — membership of the `category-image` class;
* `hasWrapper` — whether `img.closest('.product-image-wrapper')` finds
  a wrapper (true for product images, false for category images);
* `hidden` — `style.display === 'none'`;
* `attempt` — the wrapper's `data-attempt` attribute;
* `src` — the current `src` attribute;
* `replaced` — whether the wrapper's innerHTML has been replaced by
  the placeholder block. -/
structure ImgState where
  errorClass : Bool
  isCategory : Bool
  hasWrapper : Bool
  hidden : Bool
  attempt : Nat
  src : List Char
  replaced : Bool
deriving DecidableEq, Repr

/-- `handleImageError` (script.js lines 385–433) as a transition on the
element state: bail out when the `image-error` guard class is present;
with no wrapper, hide category images and stop; otherwise increment the
attempt counter, and either advance to the next of the four strategies
or — when they are exhausted — set the guard class and swap in the
placeholder block. -/
def handleImageError (st : ImgState) (originalUrl : List Char) : ImgState :=
  if st.errorClass then st
  else if ¬st.hasWrapper then
    if st.isCategory then { st with hidden := true } else st
  else
    let attempt := st.attempt + 1
    if attempt < (strategies4 originalUrl).length then
      { st with attempt := attempt, src := (strategies4 originalUrl).getD attempt [] }
    else
      { st with errorClass := true, replaced := true }

/-- The wrapper and `<img>` state that `createProductRow`
(script.js lines 207–218) renders for a product image with cleaned
URL `u`: `data-attempt="0"` and an initial `src` chosen by the hash. -/
def initialProductImg (u : List Char) : ImgState :=
  { errorClass := false, isCategory := false, hasWrapper := true,
    hidden := false, attempt := 0, src := getImageWithStrategies u,
    replaced := false }

/-- The `<img>` state that `createProductRow` (script.js line 201)
renders for a category image: class `category-image`, no wrapper. -/
def initialCategoryImg (u : List Char) : ImgState :=
  { errorClass := false, isCategory := true, hasWrapper := false,
    hidden := false, attempt := 0, src := getImageWithStrategies u,
    replaced := false }

/-! ### Pagination window -/

/-- `maxVisiblePages` (script.js line 251). -/
def maxVisiblePages : Int := 5

/-- First candidate for the window start:
`Math.max(1, currentPage - Math.floor(maxVisiblePages / 2))`. -/
def startPage0 (cp : Int) : Int := max 1 (cp - maxVisiblePages / 2)

/-- `endPage = Math.min(totalPages, startPage + maxVisiblePages - 1)`. -/
def endPage (cp tp : Int) : Int := min tp (startPage0 cp + maxVisiblePages - 1)

/-- The adjusted window start (script.js lines 255–257). -/
def startPage (cp tp : Int) : Int :=
  if endPage cp tp - startPage0 cp < maxVisiblePages - 1 then
    max 1 (endPage cp tp - maxVisiblePages + 1)
  else startPage0 cp

/-- The numbered page links emitted by the `for` loop of
`renderPagination` (script.js lines 276–282): `startPage`, …, `endPage`
in order (the separate first/last links and ellipses are extra). -/
def pageWindow (cp tp : Int) : List Int :=
  (List.range (endPage cp tp - startPage cp tp + 1).toNat).map
    (fun (i : Nat) => startPage cp tp + (i : Int))

/-! ### Helper lemmas -/

/-- `containsSub` decides substring (infix) containment. -/
theorem containsSub_decides_substring (needle : List Char) (hay : List Char) :
    containsSub needle hay = true ↔ needle <:+: hay := by
  induction hay with
  | nil =>
    simp [containsSub, List.isEmpty_iff]
  | cons c t ih =>
    simp only [containsSub, Bool.or_eq_true, List.isPrefixOf_iff_prefix, ih,
      List.infix_cons_iff]

/-- `applySorting` permutes its input: every branch is a `mergeSort`
(or the identity). -/
theorem applySorting_perm (sortType : List Char) (l : List Product) :
    (applySorting sortType l).Perm l := by
  unfold applySorting
  split_ifs <;> first | exact List.mergeSort_perm l _ | exact List.Perm.refl l

/-! ### Claims -/

/-- C4: `changePage` rejects every requested page outside
`[1, totalPages]` as a no-op — the state (in particular `currentPage`)
is returned unchanged rather than clamped. -/
theorem changePage_out_of_range_noop (st : AppState) (p : Int)
    (h : p < 1 ∨ p > (totalPages st : Int)) : changePage st p = st := by
  simp only [changePage, if_pos h]

/-- Witness for C4: page 0 is rejected on a concrete one-page state. -/
theorem changePage_out_of_range_noop_witness :
    ((0 : Int) < 1 ∨ (0 : Int) > (totalPages ⟨[], [], 1, 10, []⟩ : Int)) ∧
    changePage ⟨[], [], 1, 10, []⟩ 0 = ⟨[], [], 1, 10, []⟩ :=
  ⟨Or.inl (by decide),
    changePage_out_of_range_noop ⟨[], [], 1, 10, []⟩ 0 (Or.inl (by decide))⟩

/-- C6: the initial URL selection of `getImageWithStrategies` is a pure
function of the URL — two calls on the same URL agree — and the chosen
candidate is always one of the first three strategies
(direct / proxy variant A / proxy variant B). -/
theorem getImageWithStrategies_deterministic_and_mem (u : List Char) :
    getImageWithStrategies u = getImageWithStrategies u ∧
    getImageWithStrategies u ∈ strategies3 u := by
  refine ⟨rfl, ?_⟩
  unfold getImageWithStrategies
  split
  · next h => subst h; simp [strategies3]
  · have hk : (jsHash u).natAbs % 3 < 3 := Nat.mod_lt _ (by norm_num)
    interval_cases h : (jsHash u).natAbs % 3 <;>
      simp [strategies3, List.getD]

/-- C10: whichever of the three hash-selected strategies the product
image started on, the first load-failure event always moves it to the
proxy-variant-A candidate (index 1 of the fallback list), because the
wrapper's recorded attempt index starts at 0. -/
theorem firstFailure_goes_to_proxyA (u : List Char) :
    (handleImageError (initialProductImg u) u).src = proxyA u ∧
    (handleImageError (initialProductImg u) u).attempt = 1 := by
  constructor <;>
    simp [handleImageError, initialProductImg, strategies4, List.getD]

/-- C5: `handleImageError` on a product image is a terminal-state
machine: once the guard class is set, every further failure event is a
no-op; the recorded attempt index never decreases; and when the
four-candidate list is exhausted, the element is marked permanently
failed and the wrapper replaced with the placeholder. -/
theorem handleImageError_terminal_and_monotone (st : ImgState) (u : List Char) :
    (st.errorClass = true → handleImageError st u = st) ∧
    st.attempt ≤ (handleImageError st u).attempt ∧
    (st.hasWrapper = true → st.errorClass = false →
      (strategies4 u).length ≤ st.attempt + 1 →
      (handleImageError st u).errorClass = true ∧
      (handleImageError st u).replaced = true) := by
  unfold handleImageError
  refine ⟨fun he => by simp [he], ?_, fun hw he hx => ?_⟩
  · dsimp only
    split_ifs <;> simp
  · have hlt : ¬ (st.attempt + 1 < (strategies4 u).length) := by omega
    simp [he, hw, hlt]

/-- Witness for C5: a product image on its fourth failure is marked
failed and replaced by the placeholder. -/
theorem handleImageError_terminal_and_monotone_witness :
    (handleImageError ⟨false, false, true, false, 3, [], false⟩ []).errorClass = true ∧
    (handleImageError ⟨false, false, true, false, 3, [], false⟩ []).replaced = true :=
  (handleImageError_terminal_and_monotone ⟨false, false, true, false, 3, [], false⟩ []).2.2
    rfl rfl (by decide)

/-- Counterexample for C3: the claim says the page resets to 1 for
every sort-key change "including changing the sortKey to 'none'", but
selecting the empty ('none') sort option leaves `currentPage` at 3. -/
theorem sortChange_to_none_keeps_page :
    (sortChange ⟨[], [], 3, 10, "price-asc".data⟩ []).currentPage = 3 ∧
    (sortChange ⟨[], [], 3, 10, "price-asc".data⟩ []).currentPage ≠ 1 := by
  constructor <;> decide

/-- C3 (amended): every search resets `currentPage` to 1; a sort-key
change resets it to 1 when the new key is non-empty, while changing the
key to 'none' (the empty select value) leaves `currentPage` unchanged. -/
theorem pageReset_on_search_and_sort (st : AppState) (t s : List Char) :
    (handleSearch st t).currentPage = 1 ∧
    (s ≠ [] → (sortChange st s).currentPage = 1) ∧
    (sortChange st []).currentPage = st.currentPage := by
  refine ⟨rfl, fun hs => ?_, ?_⟩
  · simp [sortChange, handleSort, hs]
  · simp [sortChange, handleSort]

/-- Witness for C3 (amended): switching to `price-asc` on a concrete
state resets the page to 1. -/
theorem pageReset_on_search_and_sort_witness :
    ("price-asc".data ≠ ([] : List Char)) ∧
    (sortChange ⟨[], [], 3, 10, []⟩ "price-asc".data).currentPage = 1 :=
  ⟨by decide,
    (pageReset_on_search_and_sort ⟨[], [], 3, 10, []⟩ [] "price-asc".data).2.1 (by decide)⟩

/-- Counterexample for C2: the claim asserts a minimum of 1 page even
when the view is empty, but `Math.ceil(0 / 10)` as computed by
`renderPagination`/`changePage` is 0, not 1. -/
theorem totalPages_empty_view_is_zero :
    jsTotalPages 0 10 = 0 ∧ jsTotalPages 0 10 ≠ 1 := by
  constructor <;> decide

/-- C2 (amended): for every view length `L` and page size `ps > 0`, the
paginator computes `totalPages = ⌈L / ps⌉` exactly — with no minimum,
so an empty view yields 0 pages (the caller renders the "no results"
state instead of pagination in that case). -/
theorem jsTotalPages_eq_ceil (L ps : Nat) (hps : 0 < ps) :
    jsTotalPages L ps = ⌈(L : ℚ) / (ps : ℚ)⌉₊ ∧
    (L = 0 → jsTotalPages L ps = 0) := by
  constructor
  · rcases Nat.eq_zero_or_pos L with hL | hL
    · subst hL
      simp [jsTotalPages, Nat.div_eq_of_lt (by omega : ps - 1 < ps)]
    · have hq1 : 1 ≤ jsTotalPages L ps :=
        (Nat.one_le_div_iff hps).mpr (by omega)
      have h1 : jsTotalPages L ps * ps ≤ L + ps - 1 := Nat.div_mul_le_self _ _
      have h2 : L + ps - 1 < (jsTotalPages L ps + 1) * ps :=
        (Nat.div_lt_iff_lt_mul hps).mp (Nat.lt_succ_self _)
      rw [Nat.add_mul, Nat.one_mul] at h2
      have hle : L ≤ jsTotalPages L ps * ps := by omega
      have hlt : (jsTotalPages L ps - 1) * ps < L := by
        rw [Nat.sub_mul, Nat.one_mul]; omega
      rw [eq_comm, Nat.ceil_eq_iff (by omega : jsTotalPages L ps ≠ 0)]
      have hps' : (0 : ℚ) < ps := by exact_mod_cast hps
      constructor
      · rw [lt_div_iff₀ hps']
        exact_mod_cast hlt
      · rw [div_le_iff₀ hps']
        exact_mod_cast hle
  · intro hL
    subst hL
    simp [jsTotalPages, Nat.div_eq_of_lt (by omega : ps - 1 < ps)]

/-- Witness for C2 (amended): 25 items at 10 per page. -/
theorem jsTotalPages_eq_ceil_witness :
    0 < 10 ∧
    (jsTotalPages 25 10 = ⌈(25 : ℚ) / (10 : ℚ)⌉₊ ∧
      ((25 : Nat) = 0 → jsTotalPages 25 10 = 0)) :=
  ⟨by decide, jsTotalPages_eq_ceil 25 10 (by decide)⟩

/-- Counterexample for C9: the claim says a category image walks the
three-strategy candidate list and is hidden only after exhausting it,
but the very first failure event on a fresh category image hides the
element immediately — no retry happens (the attempt index stays 0 and
the `src` is left untouched instead of moving to the next candidate). -/
theorem categoryImage_hidden_on_first_failure :
    (handleImageError (initialCategoryImg "http://e/c.png".data)
        "http://e/c.png".data).hidden = true ∧
    (handleImageError (initialCategoryImg "http://e/c.png".data)
        "http://e/c.png".data).attempt = 0 ∧
    (handleImageError (initialCategoryImg "http://e/c.png".data)
        "http://e/c.png".data).src =
      (initialCategoryImg "http://e/c.png".data).src := by
  refine ⟨?_, ?_, ?_⟩ <;> simp [handleImageError, initialCategoryImg]

/-- C9 (amended): category images (class `category-image`, no
`.product-image-wrapper`) have no fallback candidate list at all: any
load-failure event on one simply hides the element (`display:none`),
and it is never replaced with a placeholder block — the retry chain
applies only to product images. -/
theorem categoryImage_hidden_not_placeholder (st : ImgState) (u : List Char)
    (hc : st.isCategory = true) (hw : st.hasWrapper = false)
    (he : st.errorClass = false) :
    handleImageError st u = { st with hidden := true } ∧
    (handleImageError st u).replaced = st.replaced ∧
    (handleImageError st u).attempt = st.attempt := by
  refine ⟨?_, ?_, ?_⟩ <;> simp [handleImageError, hc, hw, he]

/-- Witness for C9 (amended): a concrete fresh category image is hidden
by its first failure event. -/
theorem categoryImage_hidden_not_placeholder_witness :
    (initialCategoryImg "http://e/d.png".data).isCategory = true ∧
    handleImageError (initialCategoryImg "http://e/d.png".data) "http://e/d.png".data =
      { initialCategoryImg "http://e/d.png".data with hidden := true } :=
  ⟨rfl,
    (categoryImage_hidden_not_placeholder (initialCategoryImg "http://e/d.png".data)
      "http://e/d.png".data rfl rfl rfl).1⟩

/-- C7: for every `currentPage ∈ [1, totalPages]` with more than one
page, the numbered page links rendered by `renderPagination` contain
the current page, number at most 5, all lie within `[1, totalPages]`,
and are listed in strictly increasing order. -/
theorem pageWindow_invariant (cp tp : Int)
    (h1 : 1 ≤ cp) (h2 : cp ≤ tp) (_h3 : 1 < tp) :
    cp ∈ pageWindow cp tp ∧
    (pageWindow cp tp).length ≤ 5 ∧
    (∀ x ∈ pageWindow cp tp, 1 ≤ x ∧ x ≤ tp) ∧
    (pageWindow cp tp).Pairwise (· < ·) := by
  have hsp1 : 1 ≤ startPage cp tp := by
    unfold startPage endPage startPage0 maxVisiblePages
    split_ifs <;> omega
  have hspcp : startPage cp tp ≤ cp := by
    unfold startPage endPage startPage0 maxVisiblePages
    split_ifs <;> omega
  have hcpep : cp ≤ endPage cp tp := by
    unfold endPage startPage0 maxVisiblePages
    omega
  have heptp : endPage cp tp ≤ tp := by
    unfold endPage startPage0 maxVisiblePages
    omega
  have hwidth : endPage cp tp - startPage cp tp ≤ 4 := by
    unfold startPage endPage startPage0 maxVisiblePages
    split_ifs <;> omega
  have hmem : ∀ x : Int,
      x ∈ pageWindow cp tp ↔ startPage cp tp ≤ x ∧ x ≤ endPage cp tp := by
    intro x
    unfold pageWindow
    simp only [List.mem_map, List.mem_range]
    constructor
    · rintro ⟨i, hi, rfl⟩
      omega
    · rintro ⟨ha, hb⟩
      exact ⟨(x - startPage cp tp).toNat, by omega, by omega⟩
  refine ⟨(hmem cp).mpr ⟨hspcp, hcpep⟩, ?_, ?_, ?_⟩
  · unfold pageWindow
    rw [List.length_map, List.length_range]
    omega
  · intro x hx
    rcases (hmem x).mp hx with ⟨ha, hb⟩
    omega
  · unfold pageWindow
    rw [List.pairwise_map]
    exact (List.pairwise_lt_range _).imp (fun h => by omega)

/-- Witness for C7: page 7 of 20 shows the window 5–9. -/
theorem pageWindow_invariant_witness :
    (1 : Int) ≤ 7 ∧ (7 : Int) ≤ 20 ∧ (1 : Int) < 20 ∧
    (7 : Int) ∈ pageWindow 7 20 :=
  ⟨by decide, by decide, by decide,
    (pageWindow_invariant 7 20 (by decide) (by decide) (by decide)).1⟩

/-- Two sample products with distinct prices, used as concrete inputs. -/
def prodA : Product := ⟨1, "Alpha".data, 2⟩

/-- Second sample product; its price is below `prodA`'s. -/
def prodB : Product := ⟨2, "Beta".data, 1⟩

unseal List.mergeSort List.merge in
/-- Counterexample for C1: with the `price-asc` sort active, searching
with an empty term rebuilds the view by re-sorting the catalog, so the
view is not the full catalog "in original order". -/
theorem handleSearch_empty_term_reorders :
    (handleSearch ⟨[prodA, prodB], [], 3, 10, "price-asc".data⟩ []).filteredProducts =
      [prodB, prodA] ∧
    (handleSearch ⟨[prodA, prodB], [], 3, 10, "price-asc".data⟩ []).filteredProducts ≠
      (⟨[prodA, prodB], [], 3, 10, "price-asc".data⟩ : AppState).allProducts := by
  constructor <;> decide

/-- C1 (amended): for every state and search term, the view produced by
`handleSearch` is no longer than the catalog; when the trimmed,
lowercased term is empty the view is the full catalog — in original
order when no sort key is active, re-sorted (a permutation) otherwise;
and when the trimmed term is non-empty, every product in the view has
the trimmed, lowercased term as a substring of its lowercased title. -/
theorem handleSearch_spec (st : AppState) (t : List Char) :
    (handleSearch st t).filteredProducts.length ≤ st.allProducts.length ∧
    (trimStr (lowerStr t) = [] → st.currentSort = [] →
      (handleSearch st t).filteredProducts = st.allProducts) ∧
    (trimStr (lowerStr t) = [] →
      (handleSearch st t).filteredProducts.Perm st.allProducts) ∧
    (trimStr (lowerStr t) ≠ [] →
      ∀ p ∈ (handleSearch st t).filteredProducts,
        trimStr (lowerStr t) <:+: lowerStr p.title) := by
  have hfp : (handleSearch st t).filteredProducts =
      (if st.currentSort ≠ [] then
        applySorting st.currentSort
          (if trimStr (lowerStr t) = [] then st.allProducts
           else st.allProducts.filter fun p =>
             containsSub (trimStr (lowerStr t)) (lowerStr p.title))
       else
        (if trimStr (lowerStr t) = [] then st.allProducts
         else st.allProducts.filter fun p =>
           containsSub (trimStr (lowerStr t)) (lowerStr p.title))) := rfl
  have hperm : (handleSearch st t).filteredProducts.Perm
      (if trimStr (lowerStr t) = [] then st.allProducts
       else st.allProducts.filter fun p =>
         containsSub (trimStr (lowerStr t)) (lowerStr p.title)) := by
    rw [hfp]
    split_ifs <;>
      first
        | exact applySorting_perm _ _
        | exact List.Perm.refl _
  refine ⟨?_, ?_, ?_, ?_⟩
  · rw [hperm.length_eq]
    split_ifs with h
    · exact le_refl _
    · exact List.length_filter_le _ _
  · intro ht hs
    rw [hfp, if_neg (by simp [hs]), if_pos ht]
  · intro ht
    refine hperm.trans ?_
    rw [if_pos ht]
  · intro ht p hp
    have hp' := hperm.mem_iff.mp hp
    rw [if_neg ht] at hp'
    exact (containsSub_decides_substring _ _).mp (List.mem_filter.mp hp').2

/-- Witness for C1 (amended): searching "al" on a one-product catalog
keeps only products whose lowercased title contains "al". -/
theorem handleSearch_spec_witness :
    trimStr (lowerStr "al".data) ≠ [] ∧
    ∀ p ∈ (handleSearch ⟨[prodA], [], 1, 10, []⟩ "al".data).filteredProducts,
      trimStr (lowerStr "al".data) <:+: lowerStr p.title :=
  ⟨by decide,
    (handleSearch_spec ⟨[prodA], [], 1, 10, []⟩ "al".data).2.2.2 (by decide)⟩

/-- C8: on a view whose products carry pairwise distinct prices, the
`price-asc` and `price-desc` sorts produce exactly reversed sequences
of each other. -/
theorem priceAsc_reverse_of_priceDesc (l : List Product)
    (hd : l.Pairwise fun a b => a.price ≠ b.price) :
    applySorting "price-asc".data l =
      (applySorting "price-desc".data l).reverse := by
  have ea : applySorting "price-asc".data l =
      l.mergeSort (fun a b => decide (a.price ≤ b.price)) := by
    unfold applySorting
    rw [if_pos rfl]
  have ed : applySorting "price-desc".data l =
      l.mergeSort (fun a b => decide (b.price ≤ a.price)) := by
    unfold applySorting
    rw [if_neg (by decide), if_pos rfl]
  rw [ea, ed]
  have transA : ∀ a b c : Product, decide (a.price ≤ b.price) = true →
      decide (b.price ≤ c.price) = true → decide (a.price ≤ c.price) = true := by
    intro a b c h1 h2
    simp only [decide_eq_true_eq] at h1 h2 ⊢
    exact le_trans h1 h2
  have totalA : ∀ a b : Product,
      (decide (a.price ≤ b.price) || decide (b.price ≤ a.price)) = true := by
    intro a b
    simpa using le_total a.price b.price
  have transD : ∀ a b c : Product, decide (b.price ≤ a.price) = true →
      decide (c.price ≤ b.price) = true → decide (c.price ≤ a.price) = true := by
    intro a b c h1 h2
    simp only [decide_eq_true_eq] at h1 h2 ⊢
    exact le_trans h2 h1
  have totalD : ∀ a b : Product,
      (decide (b.price ≤ a.price) || decide (a.price ≤ b.price)) = true := by
    intro a b
    simpa using le_total b.price a.price
  have pA := List.mergeSort_perm l (fun a b => decide (a.price ≤ b.price))
  have pD := List.mergeSort_perm l (fun a b => decide (b.price ≤ a.price))
  have sA' : (l.mergeSort (fun a b => decide (a.price ≤ b.price))).Pairwise
      (fun a b => a.price ≤ b.price) :=
    (List.sorted_mergeSort transA totalA l).imp (fun h => by simpa using h)
  have sD' : (l.mergeSort (fun a b => decide (b.price ≤ a.price))).Pairwise
      (fun a b => b.price ≤ a.price) :=
    (List.sorted_mergeSort transD totalD l).imp (fun h => by simpa using h)
  have hdA := (pA.pairwise_iff (fun h => h.symm)).mpr hd
  have hdD := (pD.pairwise_iff (fun h => h.symm)).mpr hd
  have hA : (l.mergeSort (fun a b => decide (a.price ≤ b.price))).Pairwise
      (fun a b => a.price < b.price) :=
    (sA'.and hdA).imp (fun h => lt_of_le_of_ne h.1 h.2)
  have hD : (l.mergeSort (fun a b => decide (b.price ≤ a.price))).Pairwise
      (fun a b => b.price < a.price) :=
    (sD'.and hdD).imp (fun h => lt_of_le_of_ne h.1 h.2.symm)
  have hDrev : ((l.mergeSort (fun a b => decide (b.price ≤ a.price))).reverse).Pairwise
      (fun a b => a.price < b.price) := List.pairwise_reverse.mpr hD
  have hperm : (l.mergeSort (fun a b => decide (a.price ≤ b.price))).Perm
      ((l.mergeSort (fun a b => decide (b.price ≤ a.price))).reverse) :=
    pA.trans (pD.symm.trans (List.reverse_perm _).symm)
  haveI : IsAntisymm Product (fun a b => a.price < b.price) :=
    ⟨fun a b h1 h2 => absurd h2 (lt_asymm h1)⟩
  exact List.eq_of_perm_of_sorted hperm hA hDrev

/-- Witness for C8: the two sample products have distinct prices, and
the two price sorts of them are reverses of each other. -/
theorem priceAsc_reverse_of_priceDesc_witness :
    ([prodA, prodB].Pairwise fun a b => a.price ≠ b.price) ∧
    applySorting "price-asc".data [prodA, prodB] =
      (applySorting "price-desc".data [prodA, prodB]).reverse :=
  ⟨by decide, priceAsc_reverse_of_priceDesc [prodA, prodB] (by decide)⟩

end Script
